import Mathlib

/-!
Shallow embedding of the planetary-system simulator core
(`planet_sim02/main.py`: classes `CelestialBody` and `PhysicsEngine`)
over the real numbers, together with theorems checking the
specification's claims about it.

Modelling conventions:
* NumPy 2-vectors become the structure `Vec2` with componentwise
  arithmetic; `np.linalg.norm` becomes `Vec2.norm` via `Real.sqrt`.
* Python object identity is modelled by a natural-number tag `bid` on
  each body: two distinct Python objects carry distinct tags, and the
  identity tests performed by the source (`body != other_body` in the
  force loop, `body in self.bodies` / `list.remove` in `remove_body`)
  are modelled as comparisons of tags.
* The two in-place loops of `PhysicsEngine.update` are embedded
  index-faithfully: each iteration replaces one list element of the
  current list state, exactly as the Python loop mutates one object of
  the live list.
-/

/-- A 2-component real vector, modelling `np.array([x, y], dtype=float)`. -/
structure Vec2 where
  x : ℝ
  y : ℝ

namespace Vec2

instance : Zero Vec2 := ⟨⟨0, 0⟩⟩
instance : Add Vec2 := ⟨fun a b => ⟨a.x + b.x, a.y + b.y⟩⟩
instance : Neg Vec2 := ⟨fun a => ⟨-a.x, -a.y⟩⟩
instance : Sub Vec2 := ⟨fun a b => ⟨a.x - b.x, a.y - b.y⟩⟩

/-- Scalar multiplication `c * v` (NumPy scalar-array product). -/
def smul (c : ℝ) (v : Vec2) : Vec2 := ⟨c * v.x, c * v.y⟩

/-- Componentwise division by a scalar, `v / c` in NumPy. -/
noncomputable def divs (v : Vec2) (c : ℝ) : Vec2 := ⟨v.x / c, v.y / c⟩

/-- Euclidean norm, `np.linalg.norm(v)`. -/
noncomputable def norm (v : Vec2) : ℝ := Real.sqrt (v.x ^ 2 + v.y ^ 2)

theorem zero_x : (0 : Vec2).x = 0 := rfl
theorem zero_y : (0 : Vec2).y = 0 := rfl
theorem add_x (a b : Vec2) : (a + b).x = a.x + b.x := rfl
theorem add_y (a b : Vec2) : (a + b).y = a.y + b.y := rfl
theorem sub_x (a b : Vec2) : (a - b).x = a.x - b.x := rfl
theorem sub_y (a b : Vec2) : (a - b).y = a.y - b.y := rfl
theorem neg_x (a : Vec2) : (-a).x = -a.x := rfl
theorem neg_y (a : Vec2) : (-a).y = -a.y := rfl

theorem ext_xy {a b : Vec2} (hx : a.x = b.x) (hy : a.y = b.y) : a = b := by
  cases a; cases b; cases hx; cases hy; rfl

theorem norm_sub_comm (a b : Vec2) : (a - b).norm = (b - a).norm := by
  unfold norm
  congr 1
  simp only [sub_x, sub_y]
  ring

end Vec2

/-- The state of class `CelestialBody`.  The rendering-only fields `name`
and `color` are omitted (no claim mentions them); `bid` models the
Python object's identity. -/
structure CelestialBody where
  bid : Nat
  mass : ℝ
  position : Vec2
  velocity : Vec2
  acceleration : Vec2
  trajectory : List Vec2

namespace CelestialBody

/-- `CelestialBody.__init__`: acceleration starts at the zero vector and
the trajectory starts empty. -/
def make (bid : Nat) (mass : ℝ) (position velocity : Vec2) : CelestialBody :=
  ⟨bid, mass, position, velocity, ⟨0, 0⟩, []⟩

/-- `CelestialBody.apply_force`: `self.acceleration = force / self.mass`. -/
noncomputable def apply_force (b : CelestialBody) (force : Vec2) : CelestialBody :=
  { b with acceleration := Vec2.divs force b.mass }

/-- `CelestialBody.update(dt)`: semi-implicit Euler step followed by the
trajectory append and the conditional `pop(0)`. -/
def update (dt : ℝ) (b : CelestialBody) : CelestialBody :=
  let v : Vec2 := b.velocity + Vec2.smul dt b.acceleration
  let p : Vec2 := b.position + Vec2.smul dt v
  let t : List Vec2 := b.trajectory ++ [p]
  { b with velocity := v, position := p,
           trajectory := if 500 < t.length then t.tail else t }

/-- Iterated per-body updates: `k` successive calls of `update dt`. -/
def updateN (dt : ℝ) : Nat → CelestialBody → CelestialBody
  | 0, b => b
  | k + 1, b => update dt (updateN dt k b)

/-- The chronological list of the positions reached by the first `k`
calls of `update dt` (the values appended to the trajectory). -/
def snapshots (dt : ℝ) (k : Nat) (b : CelestialBody) : List Vec2 :=
  (List.range k).map fun i => (updateN dt (i + 1) b).position

end CelestialBody

/-- The state of class `PhysicsEngine`: the live body list and the
elapsed-time accumulator. -/
structure PhysicsEngine where
  bodies : List CelestialBody
  time : ℝ

namespace PhysicsEngine

/-- The gravitational constant of the source: `G = 6.67430e-11`. -/
noncomputable def G : ℝ := 6.67430e-11

/-- `PhysicsEngine.__init__`. -/
def init : PhysicsEngine := ⟨[], 0⟩

/-- `add_body`: `self.bodies.append(body)`. -/
def add_body (e : PhysicsEngine) (body : CelestialBody) : PhysicsEngine :=
  { e with bodies := e.bodies ++ [body] }

/-- `list.remove` on the body list: drops the first entry whose identity
tag matches, and leaves the list unchanged if none matches. -/
def removeFirstBid (bid : Nat) : List CelestialBody → List CelestialBody
  | [] => []
  | b :: rest => if b.bid = bid then rest else b :: removeFirstBid bid rest

/-- `remove_body`: `if body in self.bodies: self.bodies.remove(body)`;
both the membership test and `remove` compare by object identity. -/
def remove_body (e : PhysicsEngine) (body : CelestialBody) : PhysicsEngine :=
  if e.bodies.any (fun b => b.bid = body.bid) then
    { e with bodies := removeFirstBid body.bid e.bodies }
  else e

/-- `clear_all`: `self.bodies.clear(); self.time = 0.0`. -/
def clear_all (e : PhysicsEngine) : PhysicsEngine :=
  { e with bodies := [], time := 0 }

/-- `calculate_gravitational_force(body1, body2)`. -/
noncomputable def calculate_gravitational_force
    (body1 body2 : CelestialBody) : Vec2 :=
  let direction : Vec2 := body2.position - body1.position
  let distance : ℝ := direction.norm
  if distance < 1e3 then ⟨0, 0⟩
  else
    let direction_unit : Vec2 := Vec2.divs direction distance
    let force_magnitude : ℝ :=
      G * body1.mass * body2.mass / distance ^ 2
    Vec2.smul force_magnitude direction_unit

/-- The inner accumulation loop of `update`'s first phase: starting from
`np.array([0.0, 0.0])`, add `calculate_gravitational_force(body, other)`
for every `other` in list order with `body != other` (identity test). -/
noncomputable def total_force_on
    (body : CelestialBody) (bodies : List CelestialBody) : Vec2 :=
  bodies.foldl
    (fun acc other =>
      if body.bid = other.bid then acc
      else acc + calculate_gravitational_force body other)
    0

/-- The first loop of `update` (`for body in self.bodies: ...
body.apply_force(total_force)`), embedded index-faithfully: iteration
`i` replaces element `i` of the current list with the result of
`apply_force`, the total force being computed against the current list
state.  `fuel` bounds the remaining iterations. -/
noncomputable def force_phase_go :
    Nat → Nat → List CelestialBody → List CelestialBody
  | 0, _, bs => bs
  | fuel + 1, i, bs =>
    match bs.get? i with
    | none => bs
    | some b =>
      force_phase_go fuel (i + 1)
        (bs.set i (b.apply_force (total_force_on b bs)))

/-- The second loop of `update` (`for body in self.bodies:
body.update(dt)`), embedded index-faithfully. -/
def move_phase_go (dt : ℝ) :
    Nat → Nat → List CelestialBody → List CelestialBody
  | 0, _, bs => bs
  | fuel + 1, i, bs =>
    match bs.get? i with
    | none => bs
    | some b =>
      move_phase_go dt fuel (i + 1) (bs.set i (CelestialBody.update dt b))

/-- `PhysicsEngine.update(dt)`: force phase, then integration phase,
then `self.time += dt`. -/
noncomputable def update (dt : ℝ) (e : PhysicsEngine) : PhysicsEngine :=
  let bs1 : List CelestialBody := force_phase_go e.bodies.length 0 e.bodies
  { bodies := move_phase_go dt bs1.length 0 bs1,
    time := e.time + dt }

/-- `k` successive calls of `PhysicsEngine.update(dt)`. -/
noncomputable def stepN (dt : ℝ) : Nat → PhysicsEngine → PhysicsEngine
  | 0, e => e
  | k + 1, e => update dt (stepN dt k e)

end PhysicsEngine

/-! ### Concrete bodies and engines used by witness theorems -/

/-- A concrete body at the origin (identity tag 1, mass 2). -/
def wP : CelestialBody := ⟨1, 2, ⟨0, 0⟩, ⟨0, 0⟩, ⟨0, 0⟩, []⟩

/-- A concrete body 2000 m to the right of the origin (tag 2, mass 3). -/
def wQ : CelestialBody := ⟨2, 3, ⟨2000, 0⟩, ⟨0, 0⟩, ⟨0, 0⟩, []⟩

/-- A concrete body absent from `wEngine` (tag 3). -/
def wR : CelestialBody := ⟨3, 5, ⟨0, 3000⟩, ⟨0, 0⟩, ⟨0, 0⟩, []⟩

/-- A concrete engine holding `wP` and `wQ` at time 5. -/
def wEngine : PhysicsEngine := ⟨[wP, wQ], 5⟩

/-- Norm of a horizontal vector with a nonnegative x-component. -/
theorem Vec2.norm_horizontal (c : ℝ) (h : 0 ≤ c) : Vec2.norm ⟨c, 0⟩ = c := by
  unfold Vec2.norm
  rw [show c ^ 2 + (0 : ℝ) ^ 2 = c ^ 2 by ring]
  exact Real.sqrt_sq h

/-- The separation of the two witness bodies is exactly 2000 m. -/
theorem wQ_wP_dist : Vec2.norm (wQ.position - wP.position) = 2000 := by
  have h : wQ.position - wP.position = ⟨2000, 0⟩ := by
    apply Vec2.ext_xy <;> simp [wQ, wP, Vec2.sub_x, Vec2.sub_y]
  rw [h]
  exact Vec2.norm_horizontal 2000 (by norm_num)

/-! ### C1: the force formula -/

/-- C1: for every pair of bodies, `calculate_gravitational_force` returns
the zero vector when the separation is below 1000 m regardless of the
masses, and otherwise the vector of magnitude
`G * mass(a) * mass(b) / distance^2` in the unit direction from `a`
toward `b`, with `G = 6.67430e-11`. -/
theorem calculate_gravitational_force_spec (a b : CelestialBody) :
    (Vec2.norm (b.position - a.position) < 1000 →
      PhysicsEngine.calculate_gravitational_force a b = ⟨0, 0⟩) ∧
    (1000 ≤ Vec2.norm (b.position - a.position) →
      PhysicsEngine.calculate_gravitational_force a b =
        Vec2.smul
          (PhysicsEngine.G * a.mass * b.mass /
            Vec2.norm (b.position - a.position) ^ 2)
          (Vec2.divs (b.position - a.position)
            (Vec2.norm (b.position - a.position)))) ∧
    PhysicsEngine.G = 6.67430e-11 := by
  refine ⟨?_, ?_, rfl⟩
  · intro h
    simp only [PhysicsEngine.calculate_gravitational_force]
    rw [if_pos (by norm_num at h ⊢; exact h)]
  · intro h
    simp only [PhysicsEngine.calculate_gravitational_force]
    rw [if_neg (by rw [not_lt]; norm_num; exact h)]

/-- Witness for C1 at the concrete pair `(wP, wQ)` with separation
2000 m. -/
theorem calculate_gravitational_force_spec_witness :
    (1000 : ℝ) ≤ Vec2.norm (wQ.position - wP.position) ∧
    PhysicsEngine.calculate_gravitational_force wP wQ =
      Vec2.smul
        (PhysicsEngine.G * wP.mass * wQ.mass /
          Vec2.norm (wQ.position - wP.position) ^ 2)
        (Vec2.divs (wQ.position - wP.position)
          (Vec2.norm (wQ.position - wP.position))) := by
  have h : (1000 : ℝ) ≤ Vec2.norm (wQ.position - wP.position) := by
    rw [wQ_wP_dist]; norm_num
  exact ⟨h, (calculate_gravitational_force_spec wP wQ).2.1 h⟩

/-! ### C5: force antisymmetry -/

/-- C5: for every pair of bodies at separation at least 1000 m, the
pairwise force is antisymmetric:
`calculate_gravitational_force a b = -(calculate_gravitational_force b a)`. -/
theorem calculate_gravitational_force_antisymm (a b : CelestialBody)
    (h : 1000 ≤ Vec2.norm (b.position - a.position)) :
    PhysicsEngine.calculate_gravitational_force a b =
      -(PhysicsEngine.calculate_gravitational_force b a) := by
  have hsym : Vec2.norm (a.position - b.position) =
      Vec2.norm (b.position - a.position) := Vec2.norm_sub_comm _ _
  simp only [PhysicsEngine.calculate_gravitational_force]
  rw [if_neg (by rw [not_lt]; norm_num; exact h),
      if_neg (by rw [not_lt, hsym]; norm_num; exact h)]
  apply Vec2.ext_xy <;>
    simp only [Vec2.smul, Vec2.divs, Vec2.sub_x, Vec2.sub_y,
      Vec2.neg_x, Vec2.neg_y, hsym] <;>
    ring

/-- Witness for C5 at the concrete pair `(wP, wQ)`. -/
theorem calculate_gravitational_force_antisymm_witness :
    (1000 : ℝ) ≤ Vec2.norm (wQ.position - wP.position) ∧
    PhysicsEngine.calculate_gravitational_force wP wQ =
      -(PhysicsEngine.calculate_gravitational_force wQ wP) := by
  have h : (1000 : ℝ) ≤ Vec2.norm (wQ.position - wP.position) := by
    rw [wQ_wP_dist]; norm_num
  exact ⟨h, calculate_gravitational_force_antisymm wP wQ h⟩

/-! ### C3: the per-body semi-implicit Euler step -/

/-- C3: `CelestialBody.update dt` first sets
`velocity := velocity + acceleration * dt`, then
`position := position + velocity * dt` using the already-updated
velocity, then appends the new position to the trajectory (evicting the
oldest entry past the cap); it changes no other field, and it is a total
function (it never fails). -/
theorem celestial_update_semi_implicit (dt : ℝ) (b : CelestialBody) :
    (CelestialBody.update dt b).velocity =
      b.velocity + Vec2.smul dt b.acceleration ∧
    (CelestialBody.update dt b).position =
      b.position + Vec2.smul dt (CelestialBody.update dt b).velocity ∧
    (CelestialBody.update dt b).trajectory =
      (if 500 < (b.trajectory ++ [(CelestialBody.update dt b).position]).length
        then (b.trajectory ++ [(CelestialBody.update dt b).position]).tail
        else b.trajectory ++ [(CelestialBody.update dt b).position]) ∧
    (CelestialBody.update dt b).bid = b.bid ∧
    (CelestialBody.update dt b).mass = b.mass ∧
    (CelestialBody.update dt b).acceleration = b.acceleration :=
  ⟨rfl, rfl, rfl, rfl, rfl, rfl⟩

/-! ### C7: clearing the engine -/

/-- C7: from any engine state, `clear_all` leaves the body collection
empty and the time equal to exactly 0, and `clear_all` is idempotent. -/
theorem clear_all_idempotent (e : PhysicsEngine) :
    (e.clear_all).bodies = [] ∧ (e.clear_all).time = 0 ∧
    (e.clear_all).clear_all = e.clear_all :=
  ⟨rfl, rfl, rfl⟩

/-! ### C8: removal semantics -/

/-- The list-level removal drops exactly the first entry whose identity
tag matches, leaving everything else in order. -/
theorem removeFirstBid_decomp (l : List CelestialBody) (bid : Nat)
    (h : ∃ x ∈ l, x.bid = bid) :
    ∃ pre m post, l = pre ++ m :: post ∧ m.bid = bid ∧
      (∀ x ∈ pre, x.bid ≠ bid) ∧
      PhysicsEngine.removeFirstBid bid l = pre ++ post := by
  induction l with
  | nil => simp at h
  | cons b rest ih =>
    by_cases hb : b.bid = bid
    · exact ⟨[], b, rest, rfl, hb, by simp,
        by simp [PhysicsEngine.removeFirstBid, hb]⟩
    · have h' : ∃ x ∈ rest, x.bid = bid := by
        rcases h with ⟨x, hx, hxb⟩
        rcases List.mem_cons.mp hx with h1 | h2
        · exact absurd (h1 ▸ hxb) hb
        · exact ⟨x, h2, hxb⟩
      rcases ih h' with ⟨pre, m, post, hl, hm, hpre, hrm⟩
      refine ⟨b :: pre, m, post, by rw [hl, List.cons_append], hm, ?_,
        by simp [PhysicsEngine.removeFirstBid, hb, hrm]⟩
      intro x hx
      rcases List.mem_cons.mp hx with h1 | h2
      · exact h1 ▸ hb
      · exact hpre x h2

/-- C8: `remove_body` removes the first entry matching the argument by
identity if one is present (leaving the time untouched), and removing an
absent body is a no-op leaving the whole engine state unchanged; no error
is signalled in either case. -/
theorem remove_body_spec (e : PhysicsEngine) (body : CelestialBody) :
    ((∀ x ∈ e.bodies, x.bid ≠ body.bid) → e.remove_body body = e) ∧
    ((∃ x ∈ e.bodies, x.bid = body.bid) →
      ∃ pre m post, e.bodies = pre ++ m :: post ∧ m.bid = body.bid ∧
        (∀ x ∈ pre, x.bid ≠ body.bid) ∧
        (e.remove_body body).bodies = pre ++ post ∧
        (e.remove_body body).time = e.time) := by
  constructor
  · intro h
    unfold PhysicsEngine.remove_body
    rw [if_neg]
    simp only [List.any_eq_true, decide_eq_true_eq]
    rintro ⟨x, hx, hxb⟩
    exact h x hx hxb
  · intro h
    have hc : e.bodies.any (fun b => b.bid = body.bid) = true := by
      simp only [List.any_eq_true, decide_eq_true_eq]
      exact h
    rcases removeFirstBid_decomp e.bodies body.bid h with
      ⟨pre, m, post, h1, h2, h3, h4⟩
    refine ⟨pre, m, post, h1, h2, h3, ?_, ?_⟩
    · unfold PhysicsEngine.remove_body
      rw [if_pos hc]
      exact h4
    · unfold PhysicsEngine.remove_body
      rw [if_pos hc]

/-- Witness for C8: removing the absent body `wR` from the concrete
engine `wEngine` is a no-op. -/
theorem remove_body_spec_witness :
    (∀ x ∈ wEngine.bodies, x.bid ≠ wR.bid) ∧
    wEngine.remove_body wR = wEngine := by
  have h : ∀ x ∈ wEngine.bodies, x.bid ≠ wR.bid := by decide
  exact ⟨h, (remove_body_spec wEngine wR).1 h⟩

/-! ### C2: the engine step is two-phase

The source's first loop mutates the live list one body at a time, so the
embedding `force_phase_go` threads the current list state through the
iterations.  The lemmas below show this sequential loop computes every
total force against the pre-step positions and masses (because
`apply_force` writes only the acceleration, which the force law never
reads), hence equals the two-phase compute-all-then-apply description of
the specification. -/

namespace PhysicsEngine

/-- The per-body result of the force phase, with the total force taken
over a frozen list `bs`. -/
noncomputable def upd1 (bs : List CelestialBody) (b : CelestialBody) :
    CelestialBody :=
  b.apply_force (total_force_on b bs)

/-- The pairwise force depends on the second body only through its mass
and position. -/
theorem calculate_congr (b x y : CelestialBody) (hm : x.mass = y.mass)
    (hp : x.position = y.position) :
    calculate_gravitational_force b x = calculate_gravitational_force b y := by
  simp only [calculate_gravitational_force, hm, hp]

/-- Replacing a prefix of the iteration list by its `upd1`-image does not
change the accumulated total force: `upd1` preserves the identity tag,
the mass and the position. -/
theorem foldl_force_map (b : CelestialBody) (bs₀ : List CelestialBody) :
    ∀ (A B : List CelestialBody) (acc : Vec2),
      List.foldl
        (fun acc other => if b.bid = other.bid then acc
          else acc + calculate_gravitational_force b other) acc
        (A.map (upd1 bs₀) ++ B) =
      List.foldl
        (fun acc other => if b.bid = other.bid then acc
          else acc + calculate_gravitational_force b other) acc
        (A ++ B) := by
  intro A
  induction A with
  | nil => intro B acc; rfl
  | cons a A ih =>
    intro B acc
    simp only [List.map_cons, List.cons_append, List.foldl_cons]
    have hbid : (upd1 bs₀ a).bid = a.bid := rfl
    have hf : calculate_gravitational_force b (upd1 bs₀ a) =
        calculate_gravitational_force b a :=
      calculate_congr b _ a rfl rfl
    rw [hbid, hf, ih]

/-- The total force on `b` is unchanged when the first `i` entries have
already been through the force phase. -/
theorem total_force_on_prefix (b : CelestialBody) (bs₀ : List CelestialBody)
    (i : Nat) :
    total_force_on b ((bs₀.take i).map (upd1 bs₀) ++ bs₀.drop i) =
      total_force_on b bs₀ := by
  unfold total_force_on
  rw [foldl_force_map b bs₀ (bs₀.take i) (bs₀.drop i) 0,
    List.take_append_drop]

end PhysicsEngine

/-- Element lookup at the length of the left part of an append. -/
theorem get_append_of_len {α : Type} (A : List α) (x : α) (C : List α)
    (i : Nat) (h : A.length = i) : (A ++ x :: C).get? i = some x := by
  induction A generalizing i with
  | nil => cases h; rfl
  | cons a A ih =>
    cases h
    simpa using ih A.length rfl

/-- Overwriting at the length of the left part of an append. -/
theorem set_append_of_len {α : Type} (A : List α) (x v : α) (C : List α)
    (i : Nat) (h : A.length = i) : (A ++ x :: C).set i v = A ++ v :: C := by
  induction A generalizing i with
  | nil => cases h; rfl
  | cons a A ih =>
    cases h
    simpa using ih A.length rfl

/-- Splitting a drop at a successfully looked-up index. -/
theorem drop_cons_of_get {α : Type} (l : List α) (i : Nat) (b : α)
    (h : l.get? i = some b) : l.drop i = b :: l.drop (i + 1) := by
  rcases List.get?_eq_some.mp h with ⟨hlt, hget⟩
  rw [List.drop_eq_get_cons hlt, hget]

/-- Extending a take at a successfully looked-up index. -/
theorem take_succ_of_get {α : Type} (l : List α) (i : Nat) (b : α)
    (h : l.get? i = some b) : l.take (i + 1) = l.take i ++ [b] := by
  have h' : l[i]? = some b := by rw [← List.get?_eq_getElem? l i]; exact h
  rw [List.take_succ, h']
  rfl

namespace PhysicsEngine

/-- The sequential force loop, started at index `i` with the first `i`
entries already processed, finishes the force phase: every total force
equals the one computed against the frozen pre-step list. -/
theorem force_phase_go_spec (bs₀ : List CelestialBody) :
    ∀ (fuel i : Nat), bs₀.length ≤ i + fuel →
      force_phase_go fuel i ((bs₀.take i).map (upd1 bs₀) ++ bs₀.drop i) =
        bs₀.map (upd1 bs₀) := by
  intro fuel
  induction fuel with
  | zero =>
    intro i h
    have h' : bs₀.length ≤ i := by omega
    rw [List.take_all_of_le h', List.drop_eq_nil_of_le h', List.append_nil]
    rfl
  | succ fuel ih =>
    intro i h
    by_cases hi : i < bs₀.length
    · have hA : ((bs₀.take i).map (upd1 bs₀)).length = i := by
        simp only [List.length_map, List.length_take]
        omega
      obtain ⟨b, hb⟩ : ∃ b, bs₀.get? i = some b :=
        ⟨bs₀.get ⟨i, hi⟩, List.get?_eq_get hi⟩
      have hdrop : bs₀.drop i = b :: bs₀.drop (i + 1) :=
        drop_cons_of_get bs₀ i b hb
      have hget :
          ((bs₀.take i).map (upd1 bs₀) ++ bs₀.drop i).get? i = some b := by
        rw [hdrop]
        exact get_append_of_len _ b _ i hA
      simp only [force_phase_go, hget]
      have htf : total_force_on b
          ((bs₀.take i).map (upd1 bs₀) ++ bs₀.drop i) =
          total_force_on b bs₀ := total_force_on_prefix b bs₀ i
      rw [htf]
      have hset : ((bs₀.take i).map (upd1 bs₀) ++ bs₀.drop i).set i
            (b.apply_force (total_force_on b bs₀)) =
          (bs₀.take (i + 1)).map (upd1 bs₀) ++ bs₀.drop (i + 1) := by
        rw [hdrop, set_append_of_len _ b _ _ i hA,
          take_succ_of_get bs₀ i b hb, List.map_append]
        simp [upd1]
      rw [hset]
      exact ih (i + 1) (by omega)
    · have h' : bs₀.length ≤ i := by omega
      rw [List.take_all_of_le h', List.drop_eq_nil_of_le h', List.append_nil]
      have hget : (bs₀.map (upd1 bs₀)).get? i = none := by
        rw [List.get?_eq_none]
        simp only [List.length_map]
        omega
      simp only [force_phase_go, hget]

/-- The sequential integration loop, started at index `i` with the first
`i` entries already processed, updates every body exactly once. -/
theorem move_phase_go_spec (dt : ℝ) (bs₀ : List CelestialBody) :
    ∀ (fuel i : Nat), bs₀.length ≤ i + fuel →
      move_phase_go dt fuel i
          ((bs₀.take i).map (CelestialBody.update dt) ++ bs₀.drop i) =
        bs₀.map (CelestialBody.update dt) := by
  intro fuel
  induction fuel with
  | zero =>
    intro i h
    have h' : bs₀.length ≤ i := by omega
    rw [List.take_all_of_le h', List.drop_eq_nil_of_le h', List.append_nil]
    rfl
  | succ fuel ih =>
    intro i h
    by_cases hi : i < bs₀.length
    · have hA : ((bs₀.take i).map (CelestialBody.update dt)).length = i := by
        simp only [List.length_map, List.length_take]
        omega
      obtain ⟨b, hb⟩ : ∃ b, bs₀.get? i = some b :=
        ⟨bs₀.get ⟨i, hi⟩, List.get?_eq_get hi⟩
      have hdrop : bs₀.drop i = b :: bs₀.drop (i + 1) :=
        drop_cons_of_get bs₀ i b hb
      have hget :
          ((bs₀.take i).map (CelestialBody.update dt) ++ bs₀.drop i).get? i =
            some b := by
        rw [hdrop]
        exact get_append_of_len _ b _ i hA
      simp only [move_phase_go, hget]
      have hset : ((bs₀.take i).map (CelestialBody.update dt) ++
              bs₀.drop i).set i (CelestialBody.update dt b) =
          (bs₀.take (i + 1)).map (CelestialBody.update dt) ++
            bs₀.drop (i + 1) := by
        rw [hdrop, set_append_of_len _ b _ _ i hA,
          take_succ_of_get bs₀ i b hb, List.map_append]
        simp
      rw [hset]
      exact ih (i + 1) (by omega)
    · have h' : bs₀.length ≤ i := by omega
      rw [List.take_all_of_le h', List.drop_eq_nil_of_le h', List.append_nil]
      have hget : (bs₀.map (CelestialBody.update dt)).get? i = none := by
        rw [List.get?_eq_none]
        simp only [List.length_map]
        omega
      simp only [move_phase_go, hget]

/-- The force phase run over the whole list. -/
theorem force_phase_full (bs : List CelestialBody) :
    force_phase_go bs.length 0 bs = bs.map (upd1 bs) := by
  have h := force_phase_go_spec bs bs.length 0 (by omega)
  simpa using h

/-- The integration phase run over the whole list. -/
theorem move_phase_full (dt : ℝ) (bs : List CelestialBody) :
    move_phase_go dt bs.length 0 bs = bs.map (CelestialBody.update dt) := by
  have h := move_phase_go_spec dt bs bs.length 0 (by omega)
  simpa using h

/-- The engine step equals the two-phase description: all total forces
are computed against the pre-step collection and applied, and only then
is every body integrated; finally the time advances by `dt`. -/
theorem update_eq_two_phase (dt : ℝ) (e : PhysicsEngine) :
    update dt e =
      { bodies := (e.bodies.map (upd1 e.bodies)).map (CelestialBody.update dt),
        time := e.time + dt } := by
  simp only [update]
  rw [force_phase_full e.bodies, move_phase_full]

end PhysicsEngine

/-- C2: `PhysicsEngine.update dt` is two-phase: it first computes, for
every body, the total pairwise force over every other body in the
collection (self excluded, all forces taken against the pre-step state)
and applies it via `apply_force`; only after all forces are computed is
every body advanced by `CelestialBody.update dt`; then the time is
incremented by `dt`. -/
theorem update_two_phase (dt : ℝ) (e : PhysicsEngine) :
    PhysicsEngine.update dt e =
      { bodies := (e.bodies.map (fun b =>
            b.apply_force (PhysicsEngine.total_force_on b e.bodies))).map
          (CelestialBody.update dt),
        time := e.time + dt } :=
  PhysicsEngine.update_eq_two_phase dt e

/-! ### C4: the trajectory cap -/

namespace CelestialBody

/-- The trajectory after one step: append the new position, then evict
the head when the cap is exceeded. -/
theorem update_trajectory (dt : ℝ) (b : CelestialBody) :
    (update dt b).trajectory =
      if 500 < (b.trajectory ++ [(update dt b).position]).length
      then (b.trajectory ++ [(update dt b).position]).tail
      else b.trajectory ++ [(update dt b).position] := rfl

theorem snapshots_zero (dt : ℝ) (b : CelestialBody) :
    snapshots dt 0 b = [] := rfl

theorem snapshots_succ (dt : ℝ) (k : Nat) (b : CelestialBody) :
    snapshots dt (k + 1) b =
      snapshots dt k b ++ [(updateN dt (k + 1) b).position] := by
  unfold snapshots
  rw [List.range_succ, List.map_append]
  rfl

theorem snapshots_length (dt : ℝ) (k : Nat) (b : CelestialBody) :
    (snapshots dt k b).length = k := by
  simp [snapshots]

/-- After `k` steps the trajectory is the suffix of the full chronological
position history that fits under the cap. -/
theorem updateN_trajectory (dt : ℝ) (b : CelestialBody)
    (hb : b.trajectory.length ≤ 500) :
    ∀ k, (updateN dt k b).trajectory =
      (b.trajectory ++ snapshots dt k b).drop
        (b.trajectory.length + k - 500) := by
  intro k
  induction k with
  | zero =>
    rw [snapshots_zero, List.append_nil, Nat.add_zero,
      Nat.sub_eq_zero_of_le hb, List.drop_zero]
    rfl
  | succ k ih =>
    have htr : (updateN dt (k + 1) b).trajectory =
        if 500 < ((updateN dt k b).trajectory ++
            [(updateN dt (k + 1) b).position]).length
        then ((updateN dt k b).trajectory ++
            [(updateN dt (k + 1) b).position]).tail
        else (updateN dt k b).trajectory ++
            [(updateN dt (k + 1) b).position] := rfl
    have hS : (b.trajectory ++ snapshots dt k b).length =
        b.trajectory.length + k := by
      simp [snapshots_length]
    rw [htr, ih, snapshots_succ, ← List.append_assoc]
    by_cases hcase : 500 < b.trajectory.length + k
    · have hcond : 500 < ((b.trajectory ++ snapshots dt k b).drop
          (b.trajectory.length + k - 500) ++
          [(updateN dt (k + 1) b).position]).length := by
        rw [List.length_append, List.length_drop, hS]
        simp only [List.length_cons, List.length_nil]
        omega
      rw [if_pos hcond]
      have h1 : ((b.trajectory ++ snapshots dt k b) ++
            [(updateN dt (k + 1) b).position]).drop
            (b.trajectory.length + k - 500) =
          (b.trajectory ++ snapshots dt k b).drop
            (b.trajectory.length + k - 500) ++
            [(updateN dt (k + 1) b).position] := by
        rw [List.drop_append_eq_append_drop]
        rw [show b.trajectory.length + k - 500 -
            (b.trajectory ++ snapshots dt k b).length = 0 by
          rw [hS]; omega]
        rw [List.drop_zero]
      rw [← h1, List.tail_drop, show b.trajectory.length + k - 500 + 1 =
        b.trajectory.length + (k + 1) - 500 from by omega]
    · rw [show b.trajectory.length + k - 500 = 0 by omega, List.drop_zero]
      by_cases h2 : b.trajectory.length + k = 500
      · rw [if_pos (by
          rw [List.length_append, hS]
          simp only [List.length_cons, List.length_nil]
          omega)]
        rw [show b.trajectory.length + (k + 1) - 500 = 1 by omega,
          List.drop_one]
      · rw [if_neg (by
          rw [List.length_append, hS]
          simp only [List.length_cons, List.length_nil]
          omega)]
        rw [show b.trajectory.length + (k + 1) - 500 = 0 by omega,
          List.drop_zero]

end CelestialBody

/-- C4: for every body whose trajectory satisfies the cap, one step keeps
its trajectory length at most 500; and after more than 500 steps on a
fresh body the trajectory has length exactly 500 and equals the most
recent 500 positions in chronological (oldest-first) order, the oldest
entries having been evicted. -/
theorem trajectory_cap (dt : ℝ) (b : CelestialBody) (k : Nat) :
    (b.trajectory.length ≤ 500 →
      (CelestialBody.update dt b).trajectory.length ≤ 500) ∧
    (b.trajectory = [] → 500 < k →
      (CelestialBody.updateN dt k b).trajectory.length = 500 ∧
      (CelestialBody.updateN dt k b).trajectory =
        (CelestialBody.snapshots dt k b).drop (k - 500)) := by
  constructor
  · intro h
    rw [CelestialBody.update_trajectory]
    split_ifs with hc
    · simp only [List.length_tail, List.length_append, List.length_cons,
        List.length_nil]
      omega
    · simp only [List.length_append, List.length_cons, List.length_nil] at hc ⊢
      omega
  · intro h0 hk
    have hb : b.trajectory.length ≤ 500 := by rw [h0]; simp
    have hmain := CelestialBody.updateN_trajectory dt b hb k
    rw [h0] at hmain
    simp only [List.nil_append, List.length_nil, Nat.zero_add] at hmain
    refine ⟨?_, hmain⟩
    rw [hmain]
    simp only [List.length_drop, CelestialBody.snapshots_length]
    omega

/-- Witness for C4: a fresh concrete body stepped 501 times. -/
theorem trajectory_cap_witness :
    wP.trajectory = [] ∧ 500 < 501 ∧
    ((CelestialBody.updateN 1 501 wP).trajectory.length = 500 ∧
      (CelestialBody.updateN 1 501 wP).trajectory =
        (CelestialBody.snapshots 1 501 wP).drop (501 - 500)) :=
  ⟨rfl, by omega, (trajectory_cap 1 wP 501).2 rfl (by omega)⟩

/-! ### C6: the time accumulator -/

/-- One engine step advances the clock by exactly `dt`. -/
theorem update_time_eq (dt : ℝ) (e : PhysicsEngine) :
    (PhysicsEngine.update dt e).time = e.time + dt := rfl

/-- C6: after `k` engine steps of fixed `dt > 0` from a state whose clock
reads 0, the clock reads exactly `k * dt`; stepping never decreases the
clock, and a step with positive `dt` strictly increases it (so stepping
never resets it — only `clear_all` sets it back to 0, see C7). -/
theorem time_after_steps (k : Nat) (dt : ℝ) (e : PhysicsEngine)
    (hdt : 0 < dt) (h0 : e.time = 0) :
    (PhysicsEngine.stepN dt k e).time = (k : ℝ) * dt ∧
    (∀ j : Nat, (PhysicsEngine.stepN dt j e).time ≤
      (PhysicsEngine.stepN dt (j + 1) e).time) ∧
    (∀ j : Nat, (PhysicsEngine.stepN dt j e).time <
      (PhysicsEngine.stepN dt (j + 1) e).time) := by
  refine ⟨?_, ?_, ?_⟩
  · induction k with
    | zero => simpa [PhysicsEngine.stepN] using h0
    | succ k ih =>
      have hs : PhysicsEngine.stepN dt (k + 1) e =
          PhysicsEngine.update dt (PhysicsEngine.stepN dt k e) := rfl
      rw [hs, update_time_eq, ih]
      push_cast
      ring
  · intro j
    have hs : PhysicsEngine.stepN dt (j + 1) e =
        PhysicsEngine.update dt (PhysicsEngine.stepN dt j e) := rfl
    rw [hs, update_time_eq]
    linarith
  · intro j
    have hs : PhysicsEngine.stepN dt (j + 1) e =
        PhysicsEngine.update dt (PhysicsEngine.stepN dt j e) := rfl
    rw [hs, update_time_eq]
    linarith

/-- Witness for C6: two unit steps from the freshly initialised engine. -/
theorem time_after_steps_witness :
    (0 : ℝ) < 1 ∧ PhysicsEngine.init.time = 0 ∧
    (PhysicsEngine.stepN 1 2 PhysicsEngine.init).time = ((2 : Nat) : ℝ) * 1 :=
  ⟨by norm_num, rfl,
    (time_after_steps 2 1 PhysicsEngine.init (by norm_num) rfl).1⟩

/-! ### C10: masses are never modified -/

/-- Every survivor of a removal was already in the collection. -/
theorem mem_removeFirstBid (bid : Nat) (l : List CelestialBody)
    (x : CelestialBody) (hx : x ∈ PhysicsEngine.removeFirstBid bid l) :
    x ∈ l := by
  induction l with
  | nil => simpa [PhysicsEngine.removeFirstBid] using hx
  | cons b rest ih =>
    by_cases hb : b.bid = bid
    · simp only [PhysicsEngine.removeFirstBid, if_pos hb] at hx
      exact List.mem_cons_of_mem b hx
    · simp only [PhysicsEngine.removeFirstBid, if_neg hb,
        List.mem_cons] at hx
      rcases hx with h1 | h2
      · exact h1 ▸ List.mem_cons_self b rest
      · exact List.mem_cons_of_mem b (ih h2)

/-- C10: no core operation modifies a body's mass: `apply_force` writes
only the acceleration field, the per-body step keeps the mass, the engine
step keeps every body's mass (in order), `add_body` keeps existing masses
and appends the new one, every body surviving `remove_body` is one of the
original bodies, and `clear_all` leaves no body at all. -/
theorem mass_never_modified (dt : ℝ) (f : Vec2) (b : CelestialBody)
    (e : PhysicsEngine) :
    (b.apply_force f).mass = b.mass ∧
    (b.apply_force f).bid = b.bid ∧
    (b.apply_force f).position = b.position ∧
    (b.apply_force f).velocity = b.velocity ∧
    (b.apply_force f).trajectory = b.trajectory ∧
    (CelestialBody.update dt b).mass = b.mass ∧
    (PhysicsEngine.update dt e).bodies.map CelestialBody.mass =
      e.bodies.map CelestialBody.mass ∧
    (e.add_body b).bodies.map CelestialBody.mass =
      e.bodies.map CelestialBody.mass ++ [b.mass] ∧
    (∀ x ∈ (e.remove_body b).bodies, x ∈ e.bodies) ∧
    (e.clear_all).bodies = [] := by
  refine ⟨rfl, rfl, rfl, rfl, rfl, rfl, ?_,
    by simp [PhysicsEngine.add_body], ?_, rfl⟩
  · rw [PhysicsEngine.update_eq_two_phase]
    simp only [List.map_map]
    rfl
  · intro x hx
    unfold PhysicsEngine.remove_body at hx
    split_ifs at hx
    · exact mem_removeFirstBid b.bid e.bodies x hx
    · exact hx
